import Mathlib

/-!
Verification development for the LineraFlow donations application
(src/donations/src).  The data model follows lib.rs, the store methods
follow state.rs, and the operation / message handlers follow contract.rs.

Modelling conventions:
* `AccountOwner`, `ChainId`, `Amount` and timestamps are naturals; the
  chain-id strings stored in the state are decimal renderings of the
  numeric chain id, and `parseChainId` is the embedding of
  `ChainId::from_str`.
* `MapView<K, V>` is modelled as `K → Option V`; `RegisterView<u64>` as a
  `Nat` field.  `BTreeMap<String, String>` values are modelled as their
  entry lists.
* Storage-level `ViewError` paths are not modelled: every store read and
  write succeeds, matching the spec treatment of `StateCorruption` as
  unrecoverable.
* Operation handlers are transactional (spec section 4.3 and the Linera
  runtime): a Rust `panic!` / `expect` aborts the whole operation, so an
  `Except.error` result leaves the pre-state in force.  Message handlers
  that silently drop bad input return the state unchanged.
* The record field `from` of `DonationRecord` is renamed `from_` because
  `from` is a Lean keyword.
* The poll / giveaway construction mentioned in contract.rs refers to
  types that are not present in this repository (lib.rs has no such
  fields on `Post` and state.rs has no vote or giveaway methods); the
  handlers embedded here cover the fields that do exist, which are the
  only ones the verified properties depend on.
-/

abbrev AccountOwner := Nat

abbrev ChainId := Nat

abbrev Amount := Nat

abbrev CustomFields := List (String × String)

abbrev OrderResponses := List (String × String)

/-- Digit test used by `parseChainId`. -/
def isDigitChar (c : Char) : Bool := 48 ≤ c.toNat && c.toNat ≤ 57

/-- Embedding of `ChainId::from_str` on stored chain-id strings: in this
model a chain-id string is valid exactly when it is a non-empty decimal
numeral, and it parses to that number. -/
def parseChainId (s : String) : Option ChainId :=
  let cs := s.data
  if cs.isEmpty then none
  else if cs.all isDigitChar then
    some (cs.foldl (fun n c => n * 10 + (c.toNat - 48)) 0)
  else none

/-- Embedding of `chain_id.to_string()`. -/
def chainIdStr (c : ChainId) : String := toString c

structure OrderFormField where
  key : String
  label : String
  field_type : String
  required : Bool
deriving DecidableEq, Repr

structure Product where
  id : String
  author : AccountOwner
  author_chain_id : String
  public_data : CustomFields
  price : Amount
  private_data : CustomFields
  success_message : Option String
  order_form : List OrderFormField
  created_at : Nat
deriving DecidableEq, Repr

structure Purchase where
  id : String
  product_id : String
  buyer : AccountOwner
  buyer_chain_id : String
  seller : AccountOwner
  seller_chain_id : String
  amount : Amount
  timestamp : Nat
  order_data : OrderResponses
  product : Product
deriving DecidableEq, Repr

structure ContentSubscription where
  id : String
  subscriber : AccountOwner
  subscriber_chain_id : String
  author : AccountOwner
  author_chain_id : String
  start_timestamp : Nat
  end_timestamp : Nat
  price : Amount
deriving DecidableEq, Repr

structure SubscriptionInfo where
  author : AccountOwner
  price : Amount
  description : Option String
deriving DecidableEq, Repr

structure Post where
  id : String
  author : AccountOwner
  author_chain_id : String
  title : String
  content : String
  image_hash : Option String
  created_at : Nat
deriving DecidableEq, Repr

structure DonationRecord where
  id : Nat
  timestamp : Nat
  from_ : AccountOwner
  to_ : AccountOwner
  amount : Amount
  message : Option String
  source_chain_id : Option String
  to_chain_id : Option String
deriving DecidableEq, Repr

/-- Point update of a modelled `MapView`. -/
def mapInsert {K V : Type} [DecidableEq K] (m : K → Option V) (k : K) (v : V) :
    K → Option V :=
  fun q => if q = k then some v else m q

/-- Point removal of a modelled `MapView`. -/
def mapRemove {K V : Type} [DecidableEq K] (m : K → Option V) (k : K) :
    K → Option V :=
  fun q => if q = k then none else m q

/-- The root view `DonationsState` of state.rs. -/
structure DonationsState where
  donation_counter : Nat
  donations : Nat → Option DonationRecord
  donations_by_recipient : AccountOwner → Option (List Nat)
  donations_by_donor : AccountOwner → Option (List Nat)
  subscriptions : AccountOwner → Option String
  products : String → Option Product
  products_by_author : AccountOwner → Option (List String)
  products_by_chain : String → Option (List String)
  purchases : String → Option Purchase
  purchases_by_buyer : AccountOwner → Option (List String)
  purchases_by_seller : AccountOwner → Option (List String)
  subscription_prices : AccountOwner → Option SubscriptionInfo
  content_subscriptions : String → Option ContentSubscription
  subscriptions_by_author : AccountOwner → Option (List String)
  subscriptions_by_chain : String → Option (List String)
  subscriptions_by_subscriber : AccountOwner → Option (List String)
  posts : String → Option Post
  posts_by_author : AccountOwner → Option (List String)
  posts_by_chain : String → Option (List String)

/-- State of a fresh chain: counter zero and every map empty. -/
def emptyState : DonationsState where
  donation_counter := 0
  donations := fun _ => none
  donations_by_recipient := fun _ => none
  donations_by_donor := fun _ => none
  subscriptions := fun _ => none
  products := fun _ => none
  products_by_author := fun _ => none
  products_by_chain := fun _ => none
  purchases := fun _ => none
  purchases_by_buyer := fun _ => none
  purchases_by_seller := fun _ => none
  subscription_prices := fun _ => none
  content_subscriptions := fun _ => none
  subscriptions_by_author := fun _ => none
  subscriptions_by_chain := fun _ => none
  subscriptions_by_subscriber := fun _ => none
  posts := fun _ => none
  posts_by_author := fun _ => none
  posts_by_chain := fun _ => none

/-- `DonationsState::record_donation` of state.rs: bump the counter,
store the record under the new id and append the id to the recipient and
donor index lists.  Returns the new state and the assigned id. -/
def record_donation (s : DonationsState) (from_ to_ : AccountOwner) (amount : Amount)
    (message : Option String) (source_chain_id to_chain_id : Option String)
    (timestamp : Nat) : DonationsState × Nat :=
  let id := s.donation_counter + 1
  let rcd : DonationRecord :=
    ⟨id, timestamp, from_, to_, amount, message, source_chain_id, to_chain_id⟩
  let r := (s.donations_by_recipient to_).getD []
  let d := (s.donations_by_donor from_).getD []
  ({ s with
      donation_counter := id
      donations := mapInsert s.donations id rcd
      donations_by_recipient := mapInsert s.donations_by_recipient to_ (r ++ [id])
      donations_by_donor := mapInsert s.donations_by_donor from_ (d ++ [id]) },
   id)

/-- `DonationsState::validate_custom_fields`. -/
def validate_custom_fields (fields : CustomFields) : Except String Unit :=
  if fields.length > 20 then Except.error "Maximum 20 custom fields allowed"
  else Except.ok ()

/-- `DonationsState::validate_order_form`. -/
def validate_order_form (form : List OrderFormField) : Except String Unit :=
  if form.length > 20 then Except.error "Maximum 20 order form fields allowed"
  else Except.ok ()

/-- `DonationsState::create_product`: validate the order form only, then
insert the product and push its id onto the author and chain indices. -/
def create_product (s : DonationsState) (product : Product) :
    Except String DonationsState :=
  match validate_order_form product.order_form with
  | Except.error e => Except.error e
  | Except.ok _ =>
    let author_products := (s.products_by_author product.author).getD []
    let chain_products := (s.products_by_chain product.author_chain_id).getD []
    Except.ok { s with
      products := mapInsert s.products product.id product
      products_by_author :=
        mapInsert s.products_by_author product.author (author_products ++ [product.id])
      products_by_chain :=
        mapInsert s.products_by_chain product.author_chain_id
          (chain_products ++ [product.id]) }

/-- Field-by-field updates of `DonationsState::update_product`, in source
order: public data (validated), price, private data (validated), success
message, order form (validated). -/
def apply_public_data (p : Product) : Option CustomFields → Except String Product
  | none => Except.ok p
  | some pd =>
    match validate_custom_fields pd with
    | Except.error e => Except.error e
    | Except.ok _ => Except.ok { p with public_data := pd }

def apply_price (p : Product) : Option Amount → Product
  | none => p
  | some pr => { p with price := pr }

def apply_private_data (p : Product) : Option CustomFields → Except String Product
  | none => Except.ok p
  | some pvd =>
    match validate_custom_fields pvd with
    | Except.error e => Except.error e
    | Except.ok _ => Except.ok { p with private_data := pvd }

def apply_success_message (p : Product) : Option String → Product
  | none => p
  | some sm => { p with success_message := some sm }

def apply_order_form (p : Product) : Option (List OrderFormField) → Except String Product
  | none => Except.ok p
  | some of =>
    match validate_order_form of with
    | Except.error e => Except.error e
    | Except.ok _ => Except.ok { p with order_form := of }

/-- `DonationsState::update_product`: not-found and ownership checks, the
field updates above, then one write back into the products map. -/
def update_product (s : DonationsState) (product_id : String) (author : AccountOwner)
    (public_data : Option CustomFields) (price : Option Amount)
    (private_data : Option CustomFields) (success_message : Option String)
    (order_form : Option (List OrderFormField)) : Except String DonationsState :=
  match s.products product_id with
  | none => Except.error "Product not found"
  | some p0 =>
    if p0.author ≠ author then Except.error "Unauthorized: not product owner"
    else do
      let p1 ← apply_public_data p0 public_data
      let p2 := apply_price p1 price
      let p3 ← apply_private_data p2 private_data
      let p4 := apply_success_message p3 success_message
      let p5 ← apply_order_form p4 order_form
      pure { s with products := mapInsert s.products product_id p5 }

/-- `DonationsState::delete_product`: look the product up (not-found
check, no ownership check), remove it and retain-filter its id out of the
author and chain index lists. -/
def delete_product (s : DonationsState) (product_id : String) (author : AccountOwner) :
    Except String DonationsState :=
  match s.products product_id with
  | none => Except.error "Product not found"
  | some product =>
    let chain_id := product.author_chain_id
    let s1 := { s with products := mapRemove s.products product_id }
    let author_products :=
      ((s1.products_by_author author).getD []).filter (fun id => id != product_id)
    let s2 := { s1 with
      products_by_author := mapInsert s1.products_by_author author author_products }
    let chain_products :=
      ((s2.products_by_chain chain_id).getD []).filter (fun id => id != product_id)
    Except.ok { s2 with
      products_by_chain := mapInsert s2.products_by_chain chain_id chain_products }

/-- `DonationsState::get_product`. -/
def get_product (s : DonationsState) (product_id : String) : Option Product :=
  s.products product_id

/-- `DonationsState::record_purchase`: pure insert with buyer and seller
indexing, no validation. -/
def record_purchase (s : DonationsState) (purchase : Purchase) : DonationsState :=
  let buyer_list := (s.purchases_by_buyer purchase.buyer).getD []
  let seller_list := (s.purchases_by_seller purchase.seller).getD []
  { s with
    purchases := mapInsert s.purchases purchase.id purchase
    purchases_by_buyer :=
      mapInsert s.purchases_by_buyer purchase.buyer (buyer_list ++ [purchase.id])
    purchases_by_seller :=
      mapInsert s.purchases_by_seller purchase.seller (seller_list ++ [purchase.id]) }

/-- `DonationsState::create_subscription`: insert and index by author,
author chain and subscriber. -/
def create_subscription (s : DonationsState) (sub : ContentSubscription) :
    DonationsState :=
  let author_subs := (s.subscriptions_by_author sub.author).getD []
  let chain_subs := (s.subscriptions_by_chain sub.author_chain_id).getD []
  let subscriber_subs := (s.subscriptions_by_subscriber sub.subscriber).getD []
  { s with
    content_subscriptions := mapInsert s.content_subscriptions sub.id sub
    subscriptions_by_author :=
      mapInsert s.subscriptions_by_author sub.author (author_subs ++ [sub.id])
    subscriptions_by_chain :=
      mapInsert s.subscriptions_by_chain sub.author_chain_id (chain_subs ++ [sub.id])
    subscriptions_by_subscriber :=
      mapInsert s.subscriptions_by_subscriber sub.subscriber
        (subscriber_subs ++ [sub.id]) }

/-- `DonationsState::remove_subscription`: remove the subscription and
retain-filter its id out of the author and subscriber index lists (the
chain index is not touched by the source). -/
def remove_subscription (s : DonationsState) (sub_id : String)
    (author subscriber : AccountOwner) : DonationsState :=
  let s1 := { s with
    content_subscriptions := mapRemove s.content_subscriptions sub_id }
  let author_subs :=
    ((s1.subscriptions_by_author author).getD []).filter (fun id => id != sub_id)
  let s2 := { s1 with
    subscriptions_by_author := mapInsert s1.subscriptions_by_author author author_subs }
  let subscriber_subs :=
    ((s2.subscriptions_by_subscriber subscriber).getD []).filter
      (fun id => id != sub_id)
  { s2 with
    subscriptions_by_subscriber :=
      mapInsert s2.subscriptions_by_subscriber subscriber subscriber_subs }

/-- `DonationsState::create_post`: insert and index by author and chain. -/
def create_post (s : DonationsState) (post : Post) : DonationsState :=
  let author_posts := (s.posts_by_author post.author).getD []
  let chain_posts := (s.posts_by_chain post.author_chain_id).getD []
  { s with
    posts := mapInsert s.posts post.id post
    posts_by_author := mapInsert s.posts_by_author post.author (author_posts ++ [post.id])
    posts_by_chain :=
      mapInsert s.posts_by_chain post.author_chain_id (chain_posts ++ [post.id]) }

/-- `DonationsState::get_post`. -/
def get_post (s : DonationsState) (post_id : String) : Option Post :=
  s.posts post_id

/-- `DonationsState::update_post`: not-found check, optional field
overwrites, write back.  The source has no ownership check here. -/
def update_post (s : DonationsState) (post_id : String)
    (title content image_hash : Option String) : Except String DonationsState :=
  match s.posts post_id with
  | none => Except.error "Post not found"
  | some p0 =>
    let p1 := match title with
      | some t => { p0 with title := t }
      | none => p0
    let p2 := match content with
      | some c => { p1 with content := c }
      | none => p1
    let p3 := match image_hash with
      | some h => { p2 with image_hash := some h }
      | none => p2
    Except.ok { s with posts := mapInsert s.posts post_id p3 }

/-- `DonationsState::delete_post`: not-found and ownership checks, remove
the post and retain-filter its id out of the author index.  The source
does not touch `posts_by_chain` here. -/
def delete_post (s : DonationsState) (post_id : String) (author : AccountOwner) :
    Except String DonationsState :=
  match s.posts post_id with
  | none => Except.error "Post not found"
  | some post =>
    if post.author ≠ author then Except.error "Unauthorized: not post author"
    else
      let s1 := { s with posts := mapRemove s.posts post_id }
      let author_posts :=
        ((s1.posts_by_author author).getD []).filter (fun id => id != post_id)
      Except.ok { s1 with
        posts_by_author := mapInsert s1.posts_by_author author author_posts }

/-- Events appended to the `donations_events` stream (lib.rs
`DonationsEvent`, restricted to the variants the embedded handlers
emit). -/
inductive DonationsEvent where
  | DonationSent (id : Nat) (from_ to_ : AccountOwner) (amount : Amount)
      (message : Option String) (source_chain_id to_chain_id : Option String)
      (timestamp : Nat)
  | ProductCreated (product : Product) (timestamp : Nat)
  | ProductUpdated (product : Product) (timestamp : Nat)
  | ProductDeleted (product_id : String) (author : AccountOwner) (timestamp : Nat)
  | ProductPurchased (purchase_id product_id : String) (buyer seller : AccountOwner)
      (amount : Amount) (timestamp : Nat)
  | OrderPlaced (purchase_id product_id : String) (buyer seller : AccountOwner)
      (amount : Amount) (timestamp : Nat)
  | UserUnsubscribed (subscription_id : String) (subscriber author : AccountOwner)
      (timestamp : Nat)
  | PostCreated (post : Post) (timestamp : Nat)
  | PostUpdated (post : Post) (timestamp : Nat)
  | PostDeleted (post_id : String) (author : AccountOwner) (timestamp : Nat)
deriving DecidableEq, Repr

/-- Cross-chain messages (lib.rs `Message`, restricted to the variants
the embedded handlers send or receive). -/
inductive Message where
  | ProductCreated (product : Product)
  | ProductUpdated (product : Product)
  | ProductDeleted (product_id : String) (author : AccountOwner)
  | ProductPurchased (purchase_id product_id : String) (buyer : AccountOwner)
      (buyer_chain_id : ChainId) (seller : AccountOwner) (amount : Amount)
  | SendProductData (buyer : AccountOwner) (purchase_id : String) (product : Product)
  | OrderReceived (purchase_id product_id : String) (buyer : AccountOwner)
      (buyer_chain_id : ChainId) (amount : Amount) (order_data : OrderResponses)
      (timestamp : Nat)
  | SubscriptionPayment (subscriber : AccountOwner) (subscriber_chain_id : String)
      (author : AccountOwner) (amount : Amount) (duration_micros : Nat)
      (timestamp : Nat)
  | PostPublished (post : Post)
  | PostUpdated (post : Post)
  | PostDeleted (post_id : String) (author : AccountOwner)
deriving DecidableEq, Repr

/-- Result of a handler: the state after it ran, the events it emitted to
the local stream and the messages it sent, each tagged with its
destination chain. -/
structure ExecResult where
  state : DonationsState
  events : List DonationsEvent
  msgs : List (ChainId × Message)

/-- The repeated "send to main chain" block of contract.rs
(`Operation::CreateProduct` / `UpdateProduct` / `DeleteProduct`): look the
owner up in the `subscriptions` map, parse the stored string as a chain
id, and send the message there only when it differs from the current
chain. -/
def replicate_to_main (s : DonationsState) (owner : AccountOwner) (chain_id : ChainId)
    (m : Message) : List (ChainId × Message) :=
  match s.subscriptions owner with
  | none => []
  | some str =>
    match parseChainId str with
    | none => []
    | some main_chain_id =>
      if main_chain_id ≠ chain_id then [(main_chain_id, m)] else []

/-- `DonationsContract::check_subscription_valid` of contract.rs. -/
def check_subscription_valid (s : DonationsState) (subscriber author : AccountOwner)
    (current_time : Nat) : Bool :=
  if subscriber = author then true
  else
    ((s.subscriptions_by_author author).getD []).any fun sub_id =>
      match s.content_subscriptions sub_id with
      | some sub =>
        (sub.subscriber == subscriber) && decide (sub.end_timestamp ≥ current_time)
      | none => false

/-- `Operation::CreateProduct`: build the product from the inputs (id =
`{timestamp}-{chainId}`), store it, emit `ProductCreated` and replicate
to the main chain when registered elsewhere. -/
def executeCreateProduct (s : DonationsState) (owner : AccountOwner) (ts : Nat)
    (chain_id : ChainId) (public_data : CustomFields) (price : Amount)
    (private_data : CustomFields) (success_message : Option String)
    (order_form : List OrderFormField) : Except String ExecResult :=
  let product_id := toString ts ++ "-" ++ chainIdStr chain_id
  let product : Product :=
    ⟨product_id, owner, chainIdStr chain_id, public_data, price, private_data,
     success_message, order_form, ts⟩
  match create_product s product with
  | Except.error e => Except.error e
  | Except.ok s1 =>
    Except.ok ⟨s1, [DonationsEvent.ProductCreated product ts],
      replicate_to_main s1 owner chain_id (Message.ProductCreated product)⟩

/-- `Operation::UpdateProduct`: update through the store, re-read the
product, emit `ProductUpdated` and replicate to the main chain when
registered elsewhere. -/
def executeUpdateProduct (s : DonationsState) (owner : AccountOwner) (ts : Nat)
    (chain_id : ChainId) (product_id : String) (public_data : Option CustomFields)
    (price : Option Amount) (private_data : Option CustomFields)
    (success_message : Option String) (order_form : Option (List OrderFormField)) :
    Except String ExecResult :=
  match update_product s product_id owner public_data price private_data
      success_message order_form with
  | Except.error e => Except.error e
  | Except.ok s1 =>
    match get_product s1 product_id with
    | none => Except.error "Product not found"
    | some product =>
      Except.ok ⟨s1, [DonationsEvent.ProductUpdated product ts],
        replicate_to_main s1 owner chain_id (Message.ProductUpdated product)⟩

/-- `Operation::DeleteProduct`: delete through the store, emit
`ProductDeleted` and replicate to the main chain when registered
elsewhere. -/
def executeDeleteProduct (s : DonationsState) (owner : AccountOwner) (ts : Nat)
    (chain_id : ChainId) (product_id : String) : Except String ExecResult :=
  match delete_product s product_id owner with
  | Except.error e => Except.error e
  | Except.ok s1 =>
    Except.ok ⟨s1, [DonationsEvent.ProductDeleted product_id owner ts],
      replicate_to_main s1 owner chain_id (Message.ProductDeleted product_id owner)⟩

/-- `Operation::TransferToBuy`: emit the purchase event, notify the main
chain when the buyer is registered (the source sends this without
comparing the main chain to the current chain), then either send
`OrderReceived` with the buyer's order data to the seller's chain, or,
when buyer and seller share a chain, record the purchase locally with a
snapshot of the locally stored product. -/
def executeTransferToBuy (s : DonationsState) (owner : AccountOwner) (ts : Nat)
    (chain_id : ChainId) (product_id : String) (amount : Amount)
    (target_owner : AccountOwner) (target_chain : ChainId)
    (order_data : OrderResponses) : ExecResult :=
  let purchase_id := "purchase-" ++ toString ts ++ "-" ++ chainIdStr chain_id
  let seller := target_owner
  let ev := [DonationsEvent.ProductPurchased purchase_id product_id owner seller amount ts]
  let mainMsgs : List (ChainId × Message) :=
    match s.subscriptions owner with
    | none => []
    | some str =>
      match parseChainId str with
      | none => []
      | some main_chain_id =>
        [(main_chain_id,
          Message.ProductPurchased purchase_id product_id owner chain_id seller amount)]
  if target_chain ≠ chain_id then
    ⟨s, ev, mainMsgs ++
      [(target_chain,
        Message.OrderReceived purchase_id product_id owner chain_id amount order_data ts)]⟩
  else
    match s.products product_id with
    | some product =>
      let purchase : Purchase :=
        ⟨purchase_id, product_id, owner, chainIdStr chain_id, seller,
         product.author_chain_id, amount, ts, order_data, product⟩
      ⟨record_purchase s purchase, ev, mainMsgs⟩
    | none => ⟨s, ev, mainMsgs⟩

/-- `Message::ProductPurchased` handler on the main chain: only when the
product exists locally and the paid amount equals its current price, send
the product data to the buyer's chain and record a purchase whose
`order_data` is the empty map (the source comment says the main chain
does not have the order data). -/
def handleProductPurchased (s : DonationsState) (ts : Nat) (purchase_id product_id : String)
    (buyer : AccountOwner) (buyer_chain_id : ChainId) (seller : AccountOwner)
    (amount : Amount) : ExecResult :=
  match get_product s product_id with
  | none => ⟨s, [], []⟩
  | some product =>
    if amount = product.price then
      let purchase : Purchase :=
        ⟨purchase_id, product_id, buyer, chainIdStr buyer_chain_id, seller,
         product.author_chain_id, amount, ts, [], product⟩
      ⟨record_purchase s purchase,
       [DonationsEvent.ProductPurchased purchase_id product_id buyer seller amount ts],
       [(buyer_chain_id, Message.SendProductData buyer purchase_id product)]⟩
    else ⟨s, [], []⟩

/-- `Message::SendProductData` handler on the buyer's chain: record a
purchase built from the carried product; `order_data` is the empty map
(source comment: empty for now). -/
def handleSendProductData (s : DonationsState) (ts : Nat) (current_chain : ChainId)
    (buyer : AccountOwner) (purchase_id : String) (product : Product) : DonationsState :=
  let purchase : Purchase :=
    ⟨purchase_id, product.id, buyer, chainIdStr current_chain, product.author,
     product.author_chain_id, product.price, ts, [], product⟩
  record_purchase s purchase

/-- `Message::OrderReceived` handler on the seller's chain: only when the
product exists locally, record a purchase carrying the buyer's submitted
order data and the product snapshot, and emit `OrderPlaced`. -/
def handleOrderReceived (s : DonationsState) (purchase_id product_id : String)
    (buyer : AccountOwner) (buyer_chain_id : ChainId) (amount : Amount)
    (order_data : OrderResponses) (timestamp : Nat) : ExecResult :=
  match get_product s product_id with
  | none => ⟨s, [], []⟩
  | some product =>
    let seller := product.author
    let purchase : Purchase :=
      ⟨purchase_id, product_id, buyer, chainIdStr buyer_chain_id, seller,
       product.author_chain_id, amount, timestamp, order_data, product⟩
    ⟨record_purchase s purchase,
     [DonationsEvent.OrderPlaced purchase_id product_id buyer seller amount timestamp],
     []⟩

/-- Post id generation of `Operation::CreatePost`:
`format!("{:012x}", ts % 0x1000000000000)`. -/
def postIdOf (ts : Nat) : String :=
  let digits := Nat.toDigits 16 (ts % 16 ^ 12)
  String.mk (List.replicate (12 - digits.length) '0' ++ digits)

/-- The subscriber scan of `Operation::CreatePost`: walk the snapshot of
the author's subscription-id list; a subscription whose `end_timestamp`
is strictly before the execution time is removed and `UserUnsubscribed`
is emitted for it; an unexpired one whose subscriber chain parses and
differs from the author's chain is sent `PostPublished`. -/
def createPostScan (author : AccountOwner) (author_chain_id : ChainId) (ts : Nat)
    (post : Post) : List String → DonationsState →
    DonationsState × List DonationsEvent × List (ChainId × Message)
  | [], s => (s, [], [])
  | sub_id :: rest, s =>
    match s.content_subscriptions sub_id with
    | none => createPostScan author author_chain_id ts post rest s
    | some sub =>
      if sub.end_timestamp < ts then
        let s1 := remove_subscription s sub_id author sub.subscriber
        let r := createPostScan author author_chain_id ts post rest s1
        (r.1, DonationsEvent.UserUnsubscribed sub_id sub.subscriber author ts :: r.2.1,
         r.2.2)
      else
        match parseChainId sub.subscriber_chain_id with
        | some c =>
          if c ≠ author_chain_id then
            let r := createPostScan author author_chain_id ts post rest s
            (r.1, r.2.1, (c, Message.PostPublished post) :: r.2.2)
          else createPostScan author author_chain_id ts post rest s
        | none => createPostScan author author_chain_id ts post rest s

/-- `Operation::CreatePost`: build and store the post, emit `PostCreated`
and run the lazy-expiry fan-out scan over the author's subscriptions. -/
def executeCreatePost (s : DonationsState) (author : AccountOwner) (ts : Nat)
    (author_chain_id : ChainId) (title content : String) (image_hash : Option String) :
    ExecResult :=
  let post : Post :=
    ⟨postIdOf ts, author, chainIdStr author_chain_id, title, content, image_hash, ts⟩
  let s1 := create_post s post
  let all_subs := (s1.subscriptions_by_author author).getD []
  let r := createPostScan author author_chain_id ts post all_subs s1
  ⟨r.1, DonationsEvent.PostCreated post ts :: r.2.1, r.2.2⟩

/-- The active-subscriber fan-out of `Operation::UpdatePost` and
`Operation::DeletePost`: send the given message to every unexpired
subscription whose subscriber chain parses and differs from the author's
chain.  This loop does not expire anything. -/
def activeSubscriberMsgs (s : DonationsState) (author : AccountOwner)
    (author_chain_id : ChainId) (ts : Nat) (m : Message) : List (ChainId × Message) :=
  ((s.subscriptions_by_author author).getD []).filterMap fun sub_id =>
    match s.content_subscriptions sub_id with
    | some sub =>
      if sub.end_timestamp ≥ ts then
        match parseChainId sub.subscriber_chain_id with
        | some c => if c ≠ author_chain_id then some (c, m) else none
        | none => none
      else none
    | none => none

/-- `Operation::UpdatePost`: update through the store first, re-read the
post, then check ownership — a mismatch panics, aborting the operation —
and finally emit `PostUpdated` and fan out to active subscribers. -/
def executeUpdatePost (s : DonationsState) (author : AccountOwner) (ts : Nat)
    (author_chain_id : ChainId) (post_id : String)
    (title content image_hash : Option String) : Except String ExecResult :=
  match update_post s post_id title content image_hash with
  | Except.error e => Except.error e
  | Except.ok s1 =>
    match get_post s1 post_id with
    | none => Except.error "Post not found"
    | some post =>
      if post.author ≠ author then Except.error "Unauthorized: not post author"
      else
        Except.ok ⟨s1, [DonationsEvent.PostUpdated post ts],
          activeSubscriberMsgs s1 author author_chain_id ts (Message.PostUpdated post)⟩

/-- `Operation::DeletePost`: delete through the store (which checks
ownership), emit `PostDeleted` and fan out to active subscribers. -/
def executeDeletePost (s : DonationsState) (author : AccountOwner) (ts : Nat)
    (author_chain_id : ChainId) (post_id : String) : Except String ExecResult :=
  match delete_post s post_id author with
  | Except.error e => Except.error e
  | Except.ok s1 =>
    Except.ok ⟨s1, [DonationsEvent.PostDeleted post_id author ts],
      activeSubscriberMsgs s1 author author_chain_id ts
        (Message.PostDeleted post_id author)⟩

/-- Transactional application of an operation result: a failed operation
aborts atomically, leaving the pre-state in force (spec section 4.3). -/
def applyOp (s : DonationsState) (r : Except String ExecResult) : DonationsState :=
  match r with
  | Except.ok result => result.state
  | Except.error _ => s

/-- Messages sent by an operation: none when it aborted. -/
def opMsgs (r : Except String ExecResult) : List (ChainId × Message) :=
  match r with
  | Except.ok result => result.msgs
  | Except.error _ => []

/-- Arguments of one `record_donation` call. -/
structure DonationCall where
  from_ : AccountOwner
  to_ : AccountOwner
  amount : Amount
  message : Option String
  source_chain_id : Option String
  to_chain_id : Option String
  timestamp : Nat

/-- A sequence of `record_donation` calls applied in order. -/
def applyDonations : DonationsState → List DonationCall → DonationsState
  | s, [] => s
  | s, c :: rest =>
    applyDonations
      (record_donation s c.from_ c.to_ c.amount c.message c.source_chain_id
        c.to_chain_id c.timestamp).1 rest

theorem mapInsert_same {K V : Type} [DecidableEq K] (m : K → Option V) (k : K) (v : V) :
    mapInsert m k v k = some v := by
  simp [mapInsert]

theorem mapInsert_of_ne {K V : Type} [DecidableEq K] (m : K → Option V) (k q : K) (v : V)
    (h : q ≠ k) : mapInsert m k v q = m q := by
  simp [mapInsert, h]

theorem mapRemove_same {K V : Type} [DecidableEq K] (m : K → Option V) (k : K) :
    mapRemove m k k = none := by
  simp [mapRemove]

theorem mapRemove_of_ne {K V : Type} [DecidableEq K] (m : K → Option V) (k q : K)
    (h : q ≠ k) : mapRemove m k q = m q := by
  simp [mapRemove, h]

theorem mapRemove_some {K V : Type} [DecidableEq K] (m : K → Option V) (k q : K)
    (v : V) (h : mapRemove m k q = some v) : m q = some v := by
  by_cases hq : q = k
  · subst hq
    rw [mapRemove_same] at h
    cases h
  · rwa [mapRemove_of_ne _ _ _ hq] at h

/-- C2: `check_subscription_valid` returns true exactly when the caller
is the author, or some `ContentSubscription` indexed under the author has
this subscriber and has not expired (`end_timestamp >= now`).  In
particular an expired subscription never by itself validates the check,
and the author is always valid regardless of timestamps. -/
theorem check_subscription_valid_iff (s : DonationsState)
    (subscriber author : AccountOwner) (now : Nat) :
    check_subscription_valid s subscriber author now = true ↔
      (subscriber = author ∨
        ∃ sub_id ∈ (s.subscriptions_by_author author).getD [],
          ∃ cs, s.content_subscriptions sub_id = some cs ∧
            cs.subscriber = subscriber ∧ now ≤ cs.end_timestamp) := by
  unfold check_subscription_valid
  by_cases h : subscriber = author
  · simp [h]
  · simp only [if_neg h, List.any_eq_true]
    constructor
    · rintro ⟨sub_id, hmem, hf⟩
      refine Or.inr ⟨sub_id, hmem, ?_⟩
      cases hcs : s.content_subscriptions sub_id with
      | none => rw [hcs] at hf; exact absurd hf (by simp)
      | some cs =>
        rw [hcs] at hf
        have h1 : cs.subscriber = subscriber ∧ now ≤ cs.end_timestamp := by
          simpa [ge_iff_le] using hf
        exact ⟨cs, rfl, h1.1, h1.2⟩
    · rintro (h1 | ⟨sub_id, hmem, cs, hcs, hsub, hts⟩)
      · exact absurd h1 h
      · exact ⟨sub_id, hmem, by rw [hcs]; simp [hsub, ge_iff_le, hts]⟩

/-- C10: the main chain's `ProductPurchased` handler records a purchase,
emits the event and sends `SendProductData` to the buyer's chain exactly
when the referenced product exists locally and the paid amount equals its
stored price; otherwise it changes nothing and sends nothing. -/
theorem product_purchased_price_gate (s : DonationsState) (ts : Nat)
    (purchase_id product_id : String) (buyer : AccountOwner) (buyer_chain_id : ChainId)
    (seller : AccountOwner) (amount : Amount) :
    (∀ p, s.products product_id = some p → amount = p.price →
      (handleProductPurchased s ts purchase_id product_id buyer buyer_chain_id seller
          amount).state.purchases purchase_id =
        some ⟨purchase_id, product_id, buyer, chainIdStr buyer_chain_id, seller,
          p.author_chain_id, amount, ts, [], p⟩ ∧
      (handleProductPurchased s ts purchase_id product_id buyer buyer_chain_id seller
          amount).msgs = [(buyer_chain_id, Message.SendProductData buyer purchase_id p)] ∧
      (handleProductPurchased s ts purchase_id product_id buyer buyer_chain_id seller
          amount).events =
        [DonationsEvent.ProductPurchased purchase_id product_id buyer seller amount ts]) ∧
    (s.products product_id = none →
      handleProductPurchased s ts purchase_id product_id buyer buyer_chain_id seller
        amount = ⟨s, [], []⟩) ∧
    (∀ p, s.products product_id = some p → amount ≠ p.price →
      handleProductPurchased s ts purchase_id product_id buyer buyer_chain_id seller
        amount = ⟨s, [], []⟩) := by
  refine ⟨?_, ?_, ?_⟩
  · intro p hp hamt
    subst hamt
    unfold handleProductPurchased get_product
    rw [hp]
    simp [record_purchase, mapInsert_same]
  · intro hp
    unfold handleProductPurchased get_product
    rw [hp]
  · intro p hp hamt
    unfold handleProductPurchased get_product
    rw [hp]
    simp [hamt]

/-- Concrete instantiation of `product_purchased_price_gate`: a stored
product of price 100 bought for 100 is recorded; bought for 99 nothing
happens. -/
def prodC10 : Product := ⟨"p1", 2, "2", [], 100, [], none, [], 5⟩

def stC10 : DonationsState :=
  { emptyState with products := mapInsert emptyState.products "p1" prodC10 }

theorem product_purchased_price_gate_witness :
    (handleProductPurchased stC10 50 "pu1" "p1" 1 1 2 100).state.purchases "pu1" =
      some ⟨"pu1", "p1", 1, chainIdStr 1, 2, "2", 100, 50, [], prodC10⟩ ∧
    (handleProductPurchased stC10 50 "pu1" "p1" 1 1 2 99) = ⟨stC10, [], []⟩ := by
  constructor
  · exact ((product_purchased_price_gate stC10 50 "pu1" "p1" 1 1 2 100).1 prodC10
      (by rfl) (by rfl)).1
  · exact (product_purchased_price_gate stC10 50 "pu1" "p1" 1 1 2 99).2.2 prodC10
      (by rfl) (by decide)

/-- Successful `update_product` pins down the whole derivation: the
product was present and owned by the caller, every provided field group
passed validation, and the result state only rewrites the products map at
that id. -/
theorem update_product_ok_shape (s : DonationsState) (product_id : String)
    (author : AccountOwner) (pd : Option CustomFields) (pr : Option Amount)
    (pvd : Option CustomFields) (sm : Option String)
    (of : Option (List OrderFormField)) (s2 : DonationsState)
    (h : update_product s product_id author pd pr pvd sm of = Except.ok s2) :
    ∃ p0 p1 p3 p5,
      s.products product_id = some p0 ∧ p0.author = author ∧
      apply_public_data p0 pd = Except.ok p1 ∧
      apply_private_data (apply_price p1 pr) pvd = Except.ok p3 ∧
      apply_order_form (apply_success_message p3 sm) of = Except.ok p5 ∧
      s2 = { s with products := mapInsert s.products product_id p5 } := by
  unfold update_product at h
  simp only [bind, Except.bind, pure, Except.pure] at h
  split at h
  · cases h
  · rename_i p0 hp0
    split at h
    · cases h
    · rename_i hne
      split at h
      · cases h
      · rename_i p1 h1
        split at h
        · cases h
        · rename_i p3 h2
          split at h
          · cases h
          · rename_i p5 h3
            cases h
            exact ⟨p0, p1, p3, p5, hp0, not_not.mp hne, h1, h2, h3, rfl⟩

/-- Successful `delete_product` rewrites exactly the products map and the
two product indices. -/
theorem delete_product_ok_shape (s : DonationsState) (product_id : String)
    (author : AccountOwner) (s3 : DonationsState)
    (h : delete_product s product_id author = Except.ok s3) :
    ∃ p, s.products product_id = some p ∧
      s3 = { s with
        products := mapRemove s.products product_id
        products_by_author := mapInsert s.products_by_author author
          (((s.products_by_author author).getD []).filter (fun id => id != product_id))
        products_by_chain := mapInsert s.products_by_chain p.author_chain_id
          (((s.products_by_chain p.author_chain_id).getD []).filter
            (fun id => id != product_id)) } := by
  unfold delete_product at h
  cases hp : s.products product_id with
  | none => rw [hp] at h; cases h
  | some p =>
    rw [hp] at h
    cases h
    exact ⟨p, rfl, rfl⟩

/-- C9: later product edits never touch past orders — `update_product`
and `delete_product` leave the purchases map (and its buyer and seller
indices) entirely unchanged, so every stored purchase keeps its embedded
product snapshot and order data. -/
theorem product_mutations_preserve_purchases (s : DonationsState) (product_id : String)
    (author : AccountOwner) (pd : Option CustomFields) (pr : Option Amount)
    (pvd : Option CustomFields) (sm : Option String)
    (of : Option (List OrderFormField)) (s2 s3 : DonationsState) :
    (update_product s product_id author pd pr pvd sm of = Except.ok s2 →
      s2.purchases = s.purchases ∧ s2.purchases_by_buyer = s.purchases_by_buyer ∧
      s2.purchases_by_seller = s.purchases_by_seller) ∧
    (delete_product s product_id author = Except.ok s3 →
      s3.purchases = s.purchases ∧ s3.purchases_by_buyer = s.purchases_by_buyer ∧
      s3.purchases_by_seller = s.purchases_by_seller) := by
  constructor
  · intro h
    obtain ⟨p0, p1, p3, p5, hp, ha, h1, h2, h3, hs2⟩ :=
      update_product_ok_shape s product_id author pd pr pvd sm of s2 h
    subst hs2
    exact ⟨rfl, rfl, rfl⟩
  · intro h
    obtain ⟨p, hp, hs3⟩ := delete_product_ok_shape s product_id author s3 h
    subst hs3
    exact ⟨rfl, rfl, rfl⟩

def prodC9 : Product := ⟨"p9", 2, "2", [], 100, [], none, [], 5⟩

def purC9 : Purchase :=
  ⟨"pu9", "p9", 1, "1", 2, "2", 100, 6, [("email", "a@b.com")], prodC9⟩

def stC9 : DonationsState :=
  record_purchase
    { emptyState with products := mapInsert emptyState.products "p9" prodC9 } purC9

theorem product_mutations_preserve_purchases_witness :
    (update_product stC9 "p9" 2 none (some 50) none none none).map
        (fun s2 => s2.purchases "pu9") = Except.ok (some purC9) := by
  obtain ⟨s2, h2⟩ :
      ∃ t, update_product stC9 "p9" 2 none (some 50) none none none = Except.ok t :=
    ⟨_, rfl⟩
  have h := ((product_mutations_preserve_purchases stC9 "p9" 2 none (some 50) none
    none none s2 s2).1 h2).1
  rw [h2]
  show Except.ok (s2.purchases "pu9") = Except.ok (some purC9)
  rw [h]
  rfl

def postC1 : Post := ⟨"aabb", 3, "7", "t", "c", none, 5⟩

def stC1 : DonationsState := create_post emptyState postC1

/-- C1 counterexample: after a create→delete round trip on a post, the
post is gone from the store and from `posts_by_author`, but its id is
still listed in `posts_by_chain` — `delete_post` never removes it from
the chain index, so deletion does not remove the entity from every index
that listed it. -/
theorem delete_post_keeps_chain_index_entry :
    (delete_post stC1 "aabb" 3).map
        (fun s2 => (s2.posts "aabb", (s2.posts_by_author 3).getD [],
          (s2.posts_by_chain "7").getD [])) =
      Except.ok (none, [], ["aabb"]) := by rfl

/-- Successful owner deletion of a stored post rewrites exactly the posts
map and the author index; `posts_by_chain` is untouched. -/
theorem delete_post_ok (s : DonationsState) (q : Post) (hq : s.posts q.id = some q) :
    delete_post s q.id q.author = Except.ok { s with
      posts := mapRemove s.posts q.id
      posts_by_author := mapInsert s.posts_by_author q.author
        (((s.posts_by_author q.author).getD []).filter (fun id => id != q.id)) } := by
  unfold delete_post
  rw [hq]
  simp

/-- C1 amended: deleting a stored product with its author removes it from
`get_product`, from `products_by_author` and from `products_by_chain`;
deleting a stored post with its author removes it from `get_post` and
from `posts_by_author`, but leaves `posts_by_chain` — an index no query
reads — exactly as it was, so the deleted post id stays listed there. -/
theorem delete_roundtrip_amended (s : DonationsState) (p : Product) (q : Post) :
    (s.products p.id = some p →
      ∃ s2, delete_product s p.id p.author = Except.ok s2 ∧
        s2.products p.id = none ∧
        p.id ∉ (s2.products_by_author p.author).getD [] ∧
        p.id ∉ (s2.products_by_chain p.author_chain_id).getD []) ∧
    (s.posts q.id = some q →
      ∃ s3, delete_post s q.id q.author = Except.ok s3 ∧
        s3.posts q.id = none ∧
        q.id ∉ (s3.posts_by_author q.author).getD [] ∧
        s3.posts_by_chain = s.posts_by_chain) := by
  constructor
  · intro hp
    have hEq : delete_product s p.id p.author = Except.ok { s with
        products := mapRemove s.products p.id
        products_by_author := mapInsert s.products_by_author p.author
          (((s.products_by_author p.author).getD []).filter (fun id => id != p.id))
        products_by_chain := mapInsert s.products_by_chain p.author_chain_id
          (((s.products_by_chain p.author_chain_id).getD []).filter
            (fun id => id != p.id)) } := by
      unfold delete_product
      rw [hp]
    refine ⟨_, hEq, ?_, ?_, ?_⟩
    · simp [mapRemove]
    · simp [mapInsert, List.mem_filter]
    · simp [mapInsert, List.mem_filter]
  · intro hq
    refine ⟨_, delete_post_ok s q hq, ?_, ?_, rfl⟩
    · simp [mapRemove]
    · simp [mapInsert, List.mem_filter]

theorem apply_public_data_ok_len (p q : Product) (x : CustomFields)
    (h : apply_public_data p (some x) = Except.ok q) : x.length ≤ 20 := by
  simp only [apply_public_data, validate_custom_fields] at h
  split at h
  · cases h
  · rename_i u heq
    by_cases hl : x.length > 20
    · rw [if_pos hl] at heq; cases heq
    · omega

theorem apply_private_data_ok_len (p q : Product) (x : CustomFields)
    (h : apply_private_data p (some x) = Except.ok q) : x.length ≤ 20 := by
  simp only [apply_private_data, validate_custom_fields] at h
  split at h
  · cases h
  · rename_i u heq
    by_cases hl : x.length > 20
    · rw [if_pos hl] at heq; cases heq
    · omega

theorem apply_order_form_ok_len (p q : Product) (x : List OrderFormField)
    (h : apply_order_form p (some x) = Except.ok q) : x.length ≤ 20 := by
  simp only [apply_order_form, validate_order_form] at h
  split at h
  · cases h
  · rename_i u heq
    by_cases hl : x.length > 20
    · rw [if_pos hl] at heq; cases heq
    · omega

theorem create_product_ok_len (s s1 : DonationsState) (product : Product)
    (h : create_product s product = Except.ok s1) : product.order_form.length ≤ 20 := by
  unfold create_product validate_order_form at h
  split at h
  · cases h
  · rename_i u heq
    by_cases hl : product.order_form.length > 20
    · rw [if_pos hl] at heq; cases heq
    · omega

theorem create_product_oversized_form (s : DonationsState) (product : Product)
    (hl : 20 < product.order_form.length) :
    create_product s product = Except.error "Maximum 20 order form fields allowed" := by
  unfold create_product validate_order_form
  rw [if_pos hl]

def bigFields : CustomFields := (List.range 21).map (fun i => (toString i, ""))

/-- C6 counterexample: `create_product` validates only the order form, so
`CreateProduct` with a 21-entry public field map (and a 21-entry private
map) succeeds and stores the oversized product instead of failing with a
validation error. -/
theorem create_product_accepts_oversized_fields :
    bigFields.length = 21 ∧
    (executeCreateProduct emptyState 7 5 1 bigFields 10 bigFields none []).map
        (fun r => (r.state.products "5-1").map Product.public_data) =
      Except.ok (some bigFields) := by
  exact ⟨by rfl, by rfl⟩

/-- C6 amended: `update_product` rejects any provided public map, private
map or order form with more than 20 entries (so a successful update
bounds them all), and `create_product` enforces the bound for the order
form only — an order form of more than 20 fields makes `CreateProduct`
fail with the validation error before anything is inserted, while
oversized public or private maps are accepted at creation. -/
theorem product_validation_amended (s : DonationsState) (owner : AccountOwner)
    (ts : Nat) (chain_id : ChainId) (pub : CustomFields) (price : Amount)
    (priv : CustomFields) (sm : Option String) (of : List OrderFormField)
    (product_id : String) (author : AccountOwner) (pdo : Option CustomFields)
    (pro : Option Amount) (pvdo : Option CustomFields) (smo : Option String)
    (ofo : Option (List OrderFormField)) (r : ExecResult) (s2 : DonationsState) :
    (executeCreateProduct s owner ts chain_id pub price priv sm of = Except.ok r →
      of.length ≤ 20) ∧
    (20 < of.length →
      executeCreateProduct s owner ts chain_id pub price priv sm of =
        Except.error "Maximum 20 order form fields allowed") ∧
    (update_product s product_id author pdo pro pvdo smo ofo = Except.ok s2 →
      (∀ x, pdo = some x → x.length ≤ 20) ∧
      (∀ x, pvdo = some x → x.length ≤ 20) ∧
      (∀ x, ofo = some x → x.length ≤ 20)) := by
  refine ⟨?_, ?_, ?_⟩
  · intro h
    simp only [executeCreateProduct] at h
    split at h
    · cases h
    · rename_i s1 heq
      exact create_product_ok_len s s1 _ heq
  · intro hl
    simp only [executeCreateProduct]
    rw [create_product_oversized_form s _ (by simpa using hl)]
  · intro h
    obtain ⟨p0, p1, p3, p5, hp, ha, h1, h2, h3, hs2⟩ :=
      update_product_ok_shape s product_id author pdo pro pvdo smo ofo s2 h
    refine ⟨?_, ?_, ?_⟩
    · rintro x rfl; exact apply_public_data_ok_len p0 p1 x h1
    · rintro x rfl; exact apply_private_data_ok_len _ p3 x h2
    · rintro x rfl; exact apply_order_form_ok_len _ p5 x h3

def prodC6 : Product := ⟨"p6", 2, "2", [], 100, [], none, [], 5⟩

def stC6 : DonationsState :=
  { emptyState with products := mapInsert emptyState.products "p6" prodC6 }

def bigForm : List OrderFormField :=
  (List.range 21).map (fun i => ⟨toString i, "", "text", false⟩)

theorem product_validation_amended_witness :
    executeCreateProduct stC6 2 9 1 [] 10 [] none bigForm =
      Except.error "Maximum 20 order form fields allowed" ∧
    ([("k", "v")] : CustomFields).length ≤ 20 := by
  constructor
  · exact (product_validation_amended stC6 2 9 1 [] 10 [] none bigForm "p6" 2
      (some [("k", "v")]) none none none none ⟨emptyState, [], []⟩ emptyState).2.1
      (by decide)
  · obtain ⟨s2, h2⟩ :
        ∃ t, update_product stC6 "p6" 2 (some [("k", "v")]) none none none none =
          Except.ok t := ⟨_, rfl⟩
    exact ((product_validation_amended stC6 2 9 1 [] 10 [] none bigForm "p6" 2
      (some [("k", "v")]) none none none none ⟨emptyState, [], []⟩ s2).2.2 h2).1
      [("k", "v")] rfl

/-- Updating a stored post only rewrites the posts map at that id, and
the updated post keeps the stored author (title, content and image hash
are the only fields `update_post` can change). -/
theorem update_post_ok (s : DonationsState) (post_id : String) (p0 : Post)
    (title content image_hash : Option String) (hp : s.posts post_id = some p0) :
    ∃ p3, update_post s post_id title content image_hash =
        Except.ok { s with posts := mapInsert s.posts post_id p3 } ∧
      p3.author = p0.author := by
  unfold update_post
  rw [hp]
  cases title <;> cases content <;> cases image_hash <;> exact ⟨_, rfl, rfl⟩

/-- C7: `UpdatePost` and `DeletePost` are author-gated like the product
operations: on a stored post, a caller other than the stored author makes
both operations fail with the unauthorized error — aborting the
transaction, so the pre-state survives — and on an absent post id both
fail with the not-found error. -/
theorem post_mutations_author_gated (s : DonationsState) (caller : AccountOwner)
    (ts : Nat) (chain : ChainId) (post_id : String)
    (title content image_hash : Option String) :
    (∀ post, s.posts post_id = some post → post.author ≠ caller →
      executeUpdatePost s caller ts chain post_id title content image_hash =
        Except.error "Unauthorized: not post author" ∧
      executeDeletePost s caller ts chain post_id =
        Except.error "Unauthorized: not post author" ∧
      applyOp s (executeUpdatePost s caller ts chain post_id title content image_hash)
        = s ∧
      applyOp s (executeDeletePost s caller ts chain post_id) = s) ∧
    (s.posts post_id = none →
      executeUpdatePost s caller ts chain post_id title content image_hash =
        Except.error "Post not found" ∧
      executeDeletePost s caller ts chain post_id = Except.error "Post not found") := by
  constructor
  · intro post hpost hne
    obtain ⟨p3, hupd, hauth⟩ :=
      update_post_ok s post_id post title content image_hash hpost
    have h1 : executeUpdatePost s caller ts chain post_id title content image_hash =
        Except.error "Unauthorized: not post author" := by
      unfold executeUpdatePost
      rw [hupd]
      simp [get_post, mapInsert_same, hauth, hne]
    have h2 : executeDeletePost s caller ts chain post_id =
        Except.error "Unauthorized: not post author" := by
      unfold executeDeletePost delete_post
      rw [hpost]
      simp [hne]
    exact ⟨h1, h2, by rw [h1]; rfl, by rw [h2]; rfl⟩
  · intro hnone
    constructor
    · unfold executeUpdatePost update_post
      rw [hnone]
    · unfold executeDeletePost delete_post
      rw [hnone]

def postC7 : Post := ⟨"pz", 3, "1", "t", "c", none, 5⟩

def stC7 : DonationsState := create_post emptyState postC7

theorem post_mutations_author_gated_witness :
    executeUpdatePost stC7 4 11 1 "pz" (some "x") none none =
      Except.error "Unauthorized: not post author" ∧
    executeDeletePost stC7 4 11 1 "pz" = Except.error "Unauthorized: not post author" ∧
    executeUpdatePost stC7 4 11 1 "zz" none none none =
      Except.error "Post not found" := by
  refine ⟨?_, ?_, ?_⟩
  · exact ((post_mutations_author_gated stC7 4 11 1 "pz" (some "x") none none).1
      postC7 (by rfl) (by decide)).1
  · exact ((post_mutations_author_gated stC7 4 11 1 "pz" (some "x") none none).1
      postC7 (by rfl) (by decide)).2.1
  · exact ((post_mutations_author_gated stC7 4 11 1 "zz" none none none).2
      (by rfl)).1

def prodC4 : Product := ⟨"p4", 2, "2", [], 100, [], none, [], 5⟩

def odC4 : OrderResponses := [("email", "a@b.com")]

def stC4 : DonationsState :=
  { emptyState with products := mapInsert emptyState.products "p4" prodC4 }

/-- C4 counterexample: the buyer submits order data
`[("email", "a@b.com")]` in `TransferToBuy` (carried in the
`OrderReceived` message), but the purchase recorded on the main chain by
the `ProductPurchased` handler and the purchase recorded on the buyer's
chain by the `SendProductData` handler both carry an empty `order_data`
map, not the submitted one. -/
theorem purchase_order_data_counterexample :
    (executeTransferToBuy emptyState 1 50 1 "p4" 100 2 2 odC4).msgs =
      [(2, Message.OrderReceived "purchase-50-1" "p4" 1 1 100 odC4 50)] ∧
    ((handleProductPurchased stC4 60 "purchase-50-1" "p4" 1 1 2 100).state.purchases
        "purchase-50-1").map Purchase.order_data = some [] ∧
    ((handleSendProductData emptyState 70 1 1 "purchase-50-1" prodC4).purchases
        "purchase-50-1").map Purchase.order_data = some [] ∧
    some ([] : OrderResponses) ≠ some odC4 := by
  refine ⟨rfl, rfl, rfl, by decide⟩

/-- C4 amended: the purchase recorded on the main chain (price-matched
`ProductPurchased`) and the purchase recorded on the buyer's chain
(`SendProductData`) both embed a snapshot identical to the locally stored
or carried product, but their `order_data` is the empty map; the buyer's
submitted order data is recorded only by the seller-chain `OrderReceived`
handler (and by the same-chain local path of `TransferToBuy`). -/
theorem purchase_snapshot_amended (s : DonationsState) (ts : Nat)
    (purchase_id product_id : String) (buyer : AccountOwner)
    (buyer_chain_id : ChainId) (seller : AccountOwner) (amount : Amount)
    (current_chain : ChainId) (od : OrderResponses) (p : Product) :
    (s.products product_id = some p → amount = p.price →
      (handleProductPurchased s ts purchase_id product_id buyer buyer_chain_id seller
          amount).state.purchases purchase_id =
        some ⟨purchase_id, product_id, buyer, chainIdStr buyer_chain_id, seller,
          p.author_chain_id, amount, ts, [], p⟩) ∧
    ((handleSendProductData s ts current_chain buyer purchase_id p).purchases
        purchase_id =
      some ⟨purchase_id, p.id, buyer, chainIdStr current_chain, p.author,
        p.author_chain_id, p.price, ts, [], p⟩) ∧
    (s.products product_id = some p →
      (handleOrderReceived s purchase_id product_id buyer buyer_chain_id amount od
          ts).state.purchases purchase_id =
        some ⟨purchase_id, product_id, buyer, chainIdStr buyer_chain_id, p.author,
          p.author_chain_id, amount, ts, od, p⟩) := by
  refine ⟨?_, ?_, ?_⟩
  · intro hp hamt
    subst hamt
    unfold handleProductPurchased get_product
    rw [hp]
    simp [record_purchase, mapInsert_same]
  · unfold handleSendProductData
    simp [record_purchase, mapInsert_same]
  · intro hp
    unfold handleOrderReceived get_product
    rw [hp]
    simp [record_purchase, mapInsert_same]

theorem purchase_snapshot_amended_witness :
    (handleOrderReceived stC4 "pu" "p4" 1 1 100 odC4 60).state.purchases "pu" =
      some ⟨"pu", "p4", 1, chainIdStr 1, 2, "2", 100, 60, odC4, prodC4⟩ :=
  (purchase_snapshot_amended stC4 60 "pu" "p4" 1 1 2 100 1 odC4 prodC4).2.2 (by rfl)

/-- Membership characterisation of the main-chain replication block. -/
theorem mem_replicate_to_main (s : DonationsState) (owner : AccountOwner)
    (chain : ChainId) (msg : Message) (c : ChainId) (m : Message) :
    (c, m) ∈ replicate_to_main s owner chain msg ↔
      ∃ str, s.subscriptions owner = some str ∧ parseChainId str = some c ∧
        c ≠ chain ∧ m = msg := by
  unfold replicate_to_main
  rcases hsub : s.subscriptions owner with _ | str
  · simp
  · rcases hpc : parseChainId str with _ | mc
    · simp [hpc]
    · simp only [hpc]
      by_cases hc : mc = chain
      · subst hc
        simp only [ne_eq, not_true_eq_false, if_false, List.not_mem_nil, false_iff]
        rintro ⟨str2, hstr, hp2, hcc, rfl⟩
        cases hstr
        rw [hpc] at hp2
        cases hp2
        exact hcc rfl
      · rw [if_pos hc]
        constructor
        · intro hm
          have h12 : c = mc ∧ m = msg := by simpa using List.mem_singleton.mp hm
          obtain ⟨rfl, rfl⟩ := h12
          exact ⟨str, rfl, hpc, hc, rfl⟩
        · rintro ⟨str2, hstr, hp2, hcc, rfl⟩
          cases hstr
          rw [hpc] at hp2
          cases hp2
          simp

theorem create_product_ok_subscriptions (s s1 : DonationsState) (p : Product)
    (h : create_product s p = Except.ok s1) : s1.subscriptions = s.subscriptions := by
  unfold create_product at h
  split at h
  · cases h
  · cases h; rfl

theorem remove_subscription_cs (s : DonationsState) (sub_id : String)
    (a b : AccountOwner) :
    (remove_subscription s sub_id a b).content_subscriptions =
      mapRemove s.content_subscriptions sub_id := rfl

/-- Every message emitted by the `CreatePost` subscriber scan is a
`PostPublished` carrying the created post, addressed to the parsed chain
of a subscription that is stored at scan time, unexpired, and on a chain
other than the author's. -/
theorem createPostScan_msgs_source (author : AccountOwner) (ch : ChainId) (ts : Nat)
    (post : Post) (ids : List String) :
    ∀ (s0 : DonationsState) (c : ChainId) (m : Message),
      (c, m) ∈ (createPostScan author ch ts post ids s0).2.2 →
        ∃ sub_id, sub_id ∈ ids ∧ ∃ sub,
          s0.content_subscriptions sub_id = some sub ∧ ts ≤ sub.end_timestamp ∧
          parseChainId sub.subscriber_chain_id = some c ∧ c ≠ ch ∧
          m = Message.PostPublished post := by
  induction ids with
  | nil =>
    intro s0 c m hm
    simp [createPostScan] at hm
  | cons id rest ih =>
    intro s0 c m hm
    simp only [createPostScan] at hm
    split at hm
    · obtain ⟨sid, hmem, sub, hcs, hle, hpc, hne, hmsg⟩ := ih s0 c m hm
      exact ⟨sid, List.mem_cons_of_mem _ hmem, sub, hcs, hle, hpc, hne, hmsg⟩
    · rename_i sub hcs
      split at hm
      · obtain ⟨sid, hmem, sub2, hcs2, hle, hpc, hne, hmsg⟩ := ih _ c m hm
        refine ⟨sid, List.mem_cons_of_mem _ hmem, sub2, ?_, hle, hpc, hne, hmsg⟩
        rw [remove_subscription_cs] at hcs2
        exact mapRemove_some _ _ _ _ hcs2
      · rename_i hexp
        split at hm
        · rename_i c2 hpc
          split at hm
          · rename_i hne2
            rcases List.mem_cons.mp hm with h1 | h1
            · have hc : c = c2 := congrArg Prod.fst h1
              have hmm : m = Message.PostPublished post := congrArg Prod.snd h1
              refine ⟨id, List.mem_cons_self _ _, sub, hcs, Nat.le_of_not_lt hexp,
                ?_, ?_, hmm⟩
              · rw [hc]; exact hpc
              · rw [hc]; exact hne2
            · obtain ⟨sid, hmem, sub2, hcs2, hle, hpc2, hne, hmsg⟩ := ih s0 c m h1
              exact ⟨sid, List.mem_cons_of_mem _ hmem, sub2, hcs2, hle, hpc2, hne,
                hmsg⟩
          · obtain ⟨sid, hmem, sub2, hcs2, hle, hpc2, hne, hmsg⟩ := ih s0 c m hm
            exact ⟨sid, List.mem_cons_of_mem _ hmem, sub2, hcs2, hle, hpc2, hne, hmsg⟩
        · obtain ⟨sid, hmem, sub2, hcs2, hle, hpc2, hne, hmsg⟩ := ih s0 c m hm
          exact ⟨sid, List.mem_cons_of_mem _ hmem, sub2, hcs2, hle, hpc2, hne, hmsg⟩

/-- Every message produced by the active-subscriber fan-out of
`UpdatePost` / `DeletePost` is the given message, addressed to the parsed
chain of a stored unexpired subscription of the author on a chain other
than the author's. -/
theorem activeSubscriberMsgs_source (s : DonationsState) (author : AccountOwner)
    (ch : ChainId) (ts : Nat) (msg : Message) (c : ChainId) (m : Message)
    (hm : (c, m) ∈ activeSubscriberMsgs s author ch ts msg) :
    ∃ sub_id, sub_id ∈ (s.subscriptions_by_author author).getD [] ∧ ∃ sub,
      s.content_subscriptions sub_id = some sub ∧ ts ≤ sub.end_timestamp ∧
      parseChainId sub.subscriber_chain_id = some c ∧ c ≠ ch ∧ m = msg := by
  unfold activeSubscriberMsgs at hm
  obtain ⟨sub_id, hmem, hf⟩ := List.mem_filterMap.mp hm
  refine ⟨sub_id, hmem, ?_⟩
  rcases hcs : s.content_subscriptions sub_id with _ | sub
  · simp only [hcs] at hf
    cases hf
  · simp only [hcs] at hf
    by_cases hle : sub.end_timestamp ≥ ts
    · rw [if_pos hle] at hf
      rcases hpc : parseChainId sub.subscriber_chain_id with _ | c2
      · simp only [hpc] at hf
        cases hf
      · simp only [hpc] at hf
        by_cases hne : c2 ≠ ch
        · rw [if_pos hne] at hf
          have h0 : (c2, msg) = (c, m) := Option.some.inj hf
          have hc : c2 = c := congrArg Prod.fst h0
          have hmm : msg = m := congrArg Prod.snd h0
          subst hc
          exact ⟨sub, rfl, hle, hpc, hne, hmm.symm⟩
        · rw [if_neg hne] at hf
          cases hf
    · rw [if_neg hle] at hf
      cases hf

/-- Successful `update_post` leaves the subscription store and the
author's subscription index untouched. -/
theorem update_post_ok_subscriptions (s s1 : DonationsState) (post_id : String)
    (title content image_hash : Option String)
    (h : update_post s post_id title content image_hash = Except.ok s1) :
    s1.content_subscriptions = s.content_subscriptions ∧
    s1.subscriptions_by_author = s.subscriptions_by_author := by
  unfold update_post at h
  split at h
  · cases h
  · cases h
    exact ⟨rfl, rfl⟩

/-- Successful `delete_post` leaves the subscription store and the
author's subscription index untouched. -/
theorem delete_post_ok_subscriptions (s s1 : DonationsState) (post_id : String)
    (author : AccountOwner)
    (h : delete_post s post_id author = Except.ok s1) :
    s1.content_subscriptions = s.content_subscriptions ∧
    s1.subscriptions_by_author = s.subscriptions_by_author := by
  unfold delete_post at h
  split at h
  · cases h
  · split at h
    · cases h
    · cases h
      exact ⟨rfl, rfl⟩

def stC5 : DonationsState :=
  { emptyState with subscriptions := mapInsert emptyState.subscriptions 7 "5" }

/-- C5 counterexample: with the local `subscriptions` map sending owner 7
to main chain 5 (which parses and differs from the current chain 1),
`CreatePost` sends no message at all — post operations never replicate to
the main chain through the `subscriptions` map, so the claimed
"if and only if" fails for posts. -/
theorem createPost_no_main_chain_message :
    stC5.subscriptions 7 = some "5" ∧ parseChainId "5" = some 5 ∧ (5 : ChainId) ≠ 1 ∧
    (executeCreatePost stC5 7 1000 1 "t" "c" none).msgs = [] := by
  refine ⟨rfl, rfl, by decide, rfl⟩

/-- C5 amended: for the three product operations a replication message is
sent if and only if the `subscriptions` entry of the owner parses to a
chain id different from the executing chain — and it goes to exactly that
chain.  Post operations never use this mechanism: every message sent by
`CreatePost`, `UpdatePost` or `DeletePost` is respectively a
`PostPublished` (carrying the new post), a `PostUpdated` or a
`PostDeleted`, addressed to the parsed chain of a stored unexpired
content subscription of the author, different from the author's chain. -/
theorem product_replication_amended (s : DonationsState) (owner : AccountOwner)
    (ts : Nat) (chain : ChainId) :
    (∀ pub price priv sm of r,
      executeCreateProduct s owner ts chain pub price priv sm of = Except.ok r →
      ∀ c, (∃ m, (c, m) ∈ r.msgs) ↔
        (∃ str, s.subscriptions owner = some str ∧ parseChainId str = some c ∧
          c ≠ chain)) ∧
    (∀ product_id pdo pro pvdo smo ofo r,
      executeUpdateProduct s owner ts chain product_id pdo pro pvdo smo ofo =
        Except.ok r →
      ∀ c, (∃ m, (c, m) ∈ r.msgs) ↔
        (∃ str, s.subscriptions owner = some str ∧ parseChainId str = some c ∧
          c ≠ chain)) ∧
    (∀ product_id r,
      executeDeleteProduct s owner ts chain product_id = Except.ok r →
      ∀ c, (∃ m, (c, m) ∈ r.msgs) ↔
        (∃ str, s.subscriptions owner = some str ∧ parseChainId str = some c ∧
          c ≠ chain)) ∧
    (∀ title content image_hash c m,
      (c, m) ∈ (executeCreatePost s owner ts chain title content image_hash).msgs →
        ∃ sub_id, sub_id ∈ (s.subscriptions_by_author owner).getD [] ∧ ∃ sub,
          s.content_subscriptions sub_id = some sub ∧ ts ≤ sub.end_timestamp ∧
          parseChainId sub.subscriber_chain_id = some c ∧ c ≠ chain ∧
          m = Message.PostPublished
            ⟨postIdOf ts, owner, chainIdStr chain, title, content, image_hash,
              ts⟩) ∧
    (∀ post_id title content image_hash r,
      executeUpdatePost s owner ts chain post_id title content image_hash =
        Except.ok r →
      ∀ c m, (c, m) ∈ r.msgs →
        ∃ sub_id, sub_id ∈ (s.subscriptions_by_author owner).getD [] ∧ ∃ sub,
          s.content_subscriptions sub_id = some sub ∧ ts ≤ sub.end_timestamp ∧
          parseChainId sub.subscriber_chain_id = some c ∧ c ≠ chain ∧
          ∃ post, m = Message.PostUpdated post) ∧
    (∀ post_id r,
      executeDeletePost s owner ts chain post_id = Except.ok r →
      ∀ c m, (c, m) ∈ r.msgs →
        ∃ sub_id, sub_id ∈ (s.subscriptions_by_author owner).getD [] ∧ ∃ sub,
          s.content_subscriptions sub_id = some sub ∧ ts ≤ sub.end_timestamp ∧
          parseChainId sub.subscriber_chain_id = some c ∧ c ≠ chain ∧
          m = Message.PostDeleted post_id owner) := by
  have key : ∀ (s1 : DonationsState) (msg : Message),
      s1.subscriptions = s.subscriptions →
      ∀ c, (∃ m, (c, m) ∈ replicate_to_main s1 owner chain msg) ↔
        (∃ str, s.subscriptions owner = some str ∧ parseChainId str = some c ∧
          c ≠ chain) := by
    intro s1 msg hsubs c
    constructor
    · rintro ⟨m, hm⟩
      obtain ⟨str, h1, h2, h3, _⟩ := (mem_replicate_to_main s1 owner chain msg c m).mp hm
      rw [hsubs] at h1
      exact ⟨str, h1, h2, h3⟩
    · rintro ⟨str, h1, h2, h3⟩
      exact ⟨msg, (mem_replicate_to_main s1 owner chain msg c msg).mpr
        ⟨str, by rw [hsubs]; exact h1, h2, h3, rfl⟩⟩
  refine ⟨?_, ?_, ?_, ?_, ?_, ?_⟩
  · intro pub price priv sm of r h
    simp only [executeCreateProduct] at h
    split at h
    · cases h
    · rename_i s1 heq
      cases h
      exact key s1 _ (create_product_ok_subscriptions s s1 _ heq)
  · intro product_id pdo pro pvdo smo ofo r h
    unfold executeUpdateProduct at h
    split at h
    · cases h
    · rename_i s1 hupd
      split at h
      · cases h
      · rename_i product hget
        cases h
        obtain ⟨p0, p1, p3, p5, hp, ha, h1, h2, h3, hs1⟩ :=
          update_product_ok_shape s product_id owner pdo pro pvdo smo ofo s1 hupd
        exact key s1 _ (by rw [hs1])
  · intro product_id r h
    unfold executeDeleteProduct at h
    split at h
    · cases h
    · rename_i s1 hdel
      cases h
      obtain ⟨p, hp, hs1⟩ := delete_product_ok_shape s product_id owner s1 hdel
      exact key s1 _ (by rw [hs1])
  · intro title content image_hash c m hm
    unfold executeCreatePost at hm
    obtain ⟨sid, hmem, sub, hcs, hle, hpc, hne, hmsg⟩ :=
      createPostScan_msgs_source owner chain ts
        ⟨postIdOf ts, owner, chainIdStr chain, title, content, image_hash, ts⟩
        ((s.subscriptions_by_author owner).getD [])
        (create_post s
          ⟨postIdOf ts, owner, chainIdStr chain, title, content, image_hash, ts⟩)
        c m hm
    exact ⟨sid, hmem, sub, hcs, hle, hpc, hne, hmsg⟩
  · intro post_id title content image_hash r h c m hm
    unfold executeUpdatePost at h
    split at h
    · cases h
    · rename_i s1 hupd
      split at h
      · cases h
      · rename_i post hget
        split at h
        · cases h
        · cases h
          obtain ⟨hcsEq, hsbaEq⟩ :=
            update_post_ok_subscriptions s s1 post_id title content image_hash hupd
          obtain ⟨sid, hmem, sub, hcs, hle, hpc, hne, hmsg⟩ :=
            activeSubscriberMsgs_source s1 owner chain ts
              (Message.PostUpdated post) c m hm
          rw [hsbaEq] at hmem
          rw [hcsEq] at hcs
          exact ⟨sid, hmem, sub, hcs, hle, hpc, hne, post, hmsg⟩
  · intro post_id r h c m hm
    unfold executeDeletePost at h
    split at h
    · cases h
    · rename_i s1 hdel
      cases h
      obtain ⟨hcsEq, hsbaEq⟩ :=
        delete_post_ok_subscriptions s s1 post_id owner hdel
      obtain ⟨sid, hmem, sub, hcs, hle, hpc, hne, hmsg⟩ :=
        activeSubscriberMsgs_source s1 owner chain ts
          (Message.PostDeleted post_id owner) c m hm
      rw [hsbaEq] at hmem
      rw [hcsEq] at hcs
      exact ⟨sid, hmem, sub, hcs, hle, hpc, hne, hmsg⟩

def stC5w : DonationsState :=
  { emptyState with subscriptions := mapInsert emptyState.subscriptions 7 "5" }

theorem product_replication_amended_witness :
    ∃ m, (5, m) ∈ opMsgs (executeCreateProduct stC5w 7 9 1 [] 10 [] none []) := by
  obtain ⟨r, hok⟩ :
      ∃ r, executeCreateProduct stC5w 7 9 1 [] 10 [] none [] = Except.ok r :=
    ⟨_, rfl⟩
  have h := ((product_replication_amended stC5w 7 9 1).1 [] 10 [] none [] r hok 5).mpr
    ⟨"5", rfl, rfl, by decide⟩
  rw [hok]
  exact h

/-- The `CreatePost` scan never re-adds a subscription: a key absent from
`content_subscriptions` stays absent. -/
theorem createPostScan_cs_none (author : AccountOwner) (ch : ChainId) (ts : Nat)
    (post : Post) (ids : List String) :
    ∀ (s0 : DonationsState) (k : String), s0.content_subscriptions k = none →
      ((createPostScan author ch ts post ids s0).1).content_subscriptions k = none := by
  induction ids with
  | nil =>
    intro s0 k hk
    exact hk
  | cons id rest ih =>
    intro s0 k hk
    simp only [createPostScan]
    split
    · exact ih s0 k hk
    · rename_i sub hcs
      split
      · refine ih _ k ?_
        rw [remove_subscription_cs]
        by_cases hks : k = id
        · subst hks; exact mapRemove_same _ _
        · rw [mapRemove_of_ne _ _ _ hks]; exact hk
      · split
        · rename_i c2 hpc
          split
          · exact ih s0 k hk
          · exact ih s0 k hk
        · exact ih s0 k hk

/-- Full behaviour of the `CreatePost` subscriber scan over a
duplicate-free snapshot of the author's subscription ids, stated against
a reference state on which the scan state agrees: the emitted
`UserUnsubscribed` events are exactly those of the expired subscriptions,
the sent messages are exactly one `PostPublished` per unexpired
subscription on a different parseable chain, and every expired
subscription ends up removed from the store. -/
theorem createPostScan_spec (author : AccountOwner) (ch : ChainId) (ts : Nat)
    (post : Post) (sref : DonationsState) (ids : List String) :
    ∀ (s0 : DonationsState), ids.Nodup →
      (∀ id, id ∈ ids → s0.content_subscriptions id = sref.content_subscriptions id) →
      ((createPostScan author ch ts post ids s0).2.1 = ids.filterMap (fun id =>
          match sref.content_subscriptions id with
          | some sub =>
            if sub.end_timestamp < ts then
              some (DonationsEvent.UserUnsubscribed id sub.subscriber author ts)
            else none
          | none => none) ∧
        (createPostScan author ch ts post ids s0).2.2 = ids.filterMap (fun id =>
          match sref.content_subscriptions id with
          | some sub =>
            if sub.end_timestamp < ts then none
            else
              match parseChainId sub.subscriber_chain_id with
              | some c => if c = ch then none else some (c, Message.PostPublished post)
              | none => none
          | none => none) ∧
        (∀ id, id ∈ ids → ∀ sub, sref.content_subscriptions id = some sub →
          sub.end_timestamp < ts →
          ((createPostScan author ch ts post ids s0).1).content_subscriptions id =
            none)) := by
  induction ids with
  | nil =>
    intro s0 _ _
    refine ⟨rfl, rfl, ?_⟩
    intro id h
    cases h
  | cons id rest ih =>
    intro s0 hnd hagree
    have hid : s0.content_subscriptions id = sref.content_subscriptions id :=
      hagree id (List.mem_cons_self id rest)
    have hndr : rest.Nodup := (List.nodup_cons.mp hnd).2
    have hnotmem : id ∉ rest := (List.nodup_cons.mp hnd).1
    simp only [createPostScan]
    rcases hcs : sref.content_subscriptions id with _ | sub
    · have hs0 : s0.content_subscriptions id = none := hid.trans hcs
      simp only [hs0, List.filterMap_cons, hcs]
      obtain ⟨ihe, ihm, ihs⟩ :=
        ih s0 hndr (fun id2 h2 => hagree id2 (List.mem_cons_of_mem _ h2))
      refine ⟨ihe, ihm, ?_⟩
      rintro id2 hmem sub2 hcs2 hexp2
      rcases List.mem_cons.mp hmem with rfl | hmem2
      · rw [hcs] at hcs2; cases hcs2
      · exact ihs id2 hmem2 sub2 hcs2 hexp2
    · have hs0 : s0.content_subscriptions id = some sub := hid.trans hcs
      simp only [hs0, List.filterMap_cons, hcs]
      by_cases hexp : sub.end_timestamp < ts
      · simp only [if_pos hexp]
        have hagree1 : ∀ id2, id2 ∈ rest →
            (remove_subscription s0 id author sub.subscriber).content_subscriptions
              id2 = sref.content_subscriptions id2 := by
          intro id2 h2
          rw [remove_subscription_cs]
          have hne : id2 ≠ id := fun he => hnotmem (he ▸ h2)
          rw [mapRemove_of_ne _ _ _ hne]
          exact hagree id2 (List.mem_cons_of_mem _ h2)
        obtain ⟨ihe, ihm, ihs⟩ :=
          ih (remove_subscription s0 id author sub.subscriber) hndr hagree1
        refine ⟨congrArg (List.cons _) ihe, ihm, ?_⟩
        rintro id2 hmem sub2 hcs2 hexp2
        rcases List.mem_cons.mp hmem with rfl | hmem2
        · refine createPostScan_cs_none author ch ts post rest _ id2 ?_
          rw [remove_subscription_cs]
          exact mapRemove_same _ _
        · exact ihs id2 hmem2 sub2 hcs2 hexp2
      · simp only [if_neg hexp]
        obtain ⟨ihe, ihm, ihs⟩ :=
          ih s0 hndr (fun id2 h2 => hagree id2 (List.mem_cons_of_mem _ h2))
        have third : ∀ id2, id2 ∈ id :: rest → ∀ sub2,
            sref.content_subscriptions id2 = some sub2 → sub2.end_timestamp < ts →
            ((createPostScan author ch ts post rest s0).1).content_subscriptions id2 =
              none := by
          rintro id2 hmem sub2 hcs2 hexp2
          rcases List.mem_cons.mp hmem with rfl | hmem2
          · rw [hcs] at hcs2
            cases hcs2
            exact absurd hexp2 hexp
          · exact ihs id2 hmem2 sub2 hcs2 hexp2
        rcases hpc : parseChainId sub.subscriber_chain_id with _ | c
        · simp only [hpc]
          exact ⟨ihe, ihm, third⟩
        · simp only [hpc]
          by_cases hcc : c = ch
          · subst hcc
            simp only [ne_eq, not_true_eq_false, if_false, ite_self]
            exact ⟨ihe, by simpa using ihm, third⟩
          · simp only [if_pos hcc, if_neg hcc]
            exact ⟨ihe, congrArg (List.cons _) ihm, third⟩

/-- C3: executing `CreatePost` at time `ts` lazily expires every indexed
subscription with `end_timestamp < ts` (removed from the store, a
`UserUnsubscribed` event emitted) and sends the messages described by the
unexpired subscriptions: exactly one `PostPublished` carrying the new
post per subscription whose subscriber chain parses and differs from the
author's chain, and none for expired ones. -/
theorem createPost_lazy_expiry (s : DonationsState) (author : AccountOwner)
    (ts : Nat) (chain : ChainId) (title content : String)
    (image_hash : Option String)
    (hnd : ((s.subscriptions_by_author author).getD []).Nodup) :
    (∀ id ∈ (s.subscriptions_by_author author).getD [],
      ∀ sub, s.content_subscriptions id = some sub → sub.end_timestamp < ts →
        (executeCreatePost s author ts chain title content
            image_hash).state.content_subscriptions id = none ∧
        DonationsEvent.UserUnsubscribed id sub.subscriber author ts ∈
          (executeCreatePost s author ts chain title content image_hash).events) ∧
    (executeCreatePost s author ts chain title content image_hash).msgs =
      ((s.subscriptions_by_author author).getD []).filterMap (fun id =>
        match s.content_subscriptions id with
        | some sub =>
          if sub.end_timestamp < ts then none
          else
            match parseChainId sub.subscriber_chain_id with
            | some c =>
              if c = chain then none
              else some (c, Message.PostPublished
                ⟨postIdOf ts, author, chainIdStr chain, title, content, image_hash, ts⟩)
            | none => none
        | none => none) := by
  obtain ⟨he, hm, hs⟩ := createPostScan_spec author chain ts
    ⟨postIdOf ts, author, chainIdStr chain, title, content, image_hash, ts⟩ s
    ((s.subscriptions_by_author author).getD [])
    (create_post s
      ⟨postIdOf ts, author, chainIdStr chain, title, content, image_hash, ts⟩)
    hnd (fun id _ => rfl)
  constructor
  · intro id hmem sub hcs hexp
    refine ⟨hs id hmem sub hcs hexp, ?_⟩
    have hev : DonationsEvent.UserUnsubscribed id sub.subscriber author ts ∈
        (createPostScan author chain ts
          ⟨postIdOf ts, author, chainIdStr chain, title, content, image_hash, ts⟩
          ((s.subscriptions_by_author author).getD [])
          (create_post s
            ⟨postIdOf ts, author, chainIdStr chain, title, content, image_hash,
              ts⟩)).2.1 := by
      rw [he]
      exact List.mem_filterMap.mpr ⟨id, hmem, by rw [hcs]; simp [hexp]⟩
    exact List.mem_cons_of_mem _ hev
  · exact hm

def subC3e : ContentSubscription := ⟨"sE", 9, "2", 3, "1", 0, 500, 10⟩

def subC3a : ContentSubscription := ⟨"sA", 8, "2", 3, "1", 0, 2000, 10⟩

def stC3 : DonationsState :=
  create_subscription (create_subscription emptyState subC3e) subC3a

theorem createPost_lazy_expiry_witness :
    (executeCreatePost stC3 3 1000 1 "t" "c" none).state.content_subscriptions "sE" =
      none ∧
    DonationsEvent.UserUnsubscribed "sE" 9 3 1000 ∈
      (executeCreatePost stC3 3 1000 1 "t" "c" none).events ∧
    (executeCreatePost stC3 3 1000 1 "t" "c" none).msgs =
      [(2, Message.PostPublished
        ⟨postIdOf 1000, 3, chainIdStr 1, "t", "c", none, 1000⟩)] := by
  have h := createPost_lazy_expiry stC3 3 1000 1 "t" "c" none (by decide)
  have h1 := h.1 "sE" (by decide) subC3e (by rfl) (by decide)
  refine ⟨h1.1, h1.2, ?_⟩
  rw [h.2]
  rfl

/-- Bookkeeping invariant for the donation ledger: each index list holds
exactly the ids of the stored records with the matching recipient or
donor, without duplicates; every stored record carries its key as its
`id` field and is bounded by the counter. -/
def donationInv (s : DonationsState) : Prop :=
  (∀ x id, id ∈ (s.donations_by_recipient x).getD [] ↔
    ∃ r, s.donations id = some r ∧ r.to_ = x) ∧
  (∀ x id, id ∈ (s.donations_by_donor x).getD [] ↔
    ∃ r, s.donations id = some r ∧ r.from_ = x) ∧
  (∀ x, ((s.donations_by_recipient x).getD []).Nodup) ∧
  (∀ x, ((s.donations_by_donor x).getD []).Nodup) ∧
  (∀ id r, s.donations id = some r → r.id = id ∧ id ≤ s.donation_counter)

theorem donationInv_empty : donationInv emptyState := by
  refine ⟨?_, ?_, ?_, ?_, ?_⟩ <;> simp [emptyState]

theorem donationInv_step (s : DonationsState) (f t : AccountOwner) (amount : Amount)
    (message : Option String) (src dst : Option String) (ts : Nat)
    (hInv : donationInv s) :
    donationInv (record_donation s f t amount message src dst ts).1 := by
  obtain ⟨hR, hD, hRnd, hDnd, hBound⟩ := hInv
  have hfreshS : ∀ r, s.donations (s.donation_counter + 1) = some r → False := by
    intro r hr
    have := (hBound _ r hr).2
    omega
  have hfreshR : ∀ x, s.donation_counter + 1 ∉ (s.donations_by_recipient x).getD [] := by
    intro x hmem
    obtain ⟨r, hr, _⟩ := (hR x _).mp hmem
    exact hfreshS r hr
  have hfreshD : ∀ x, s.donation_counter + 1 ∉ (s.donations_by_donor x).getD [] := by
    intro x hmem
    obtain ⟨r, hr, _⟩ := (hD x _).mp hmem
    exact hfreshS r hr
  refine ⟨?_, ?_, ?_, ?_, ?_⟩
  · intro x id
    show id ∈ (mapInsert s.donations_by_recipient t
        (((s.donations_by_recipient t).getD []) ++ [s.donation_counter + 1]) x).getD []
      ↔ ∃ r, mapInsert s.donations (s.donation_counter + 1)
          ⟨s.donation_counter + 1, ts, f, t, amount, message, src, dst⟩ id = some r ∧
        r.to_ = x
    by_cases hx : x = t
    · subst hx
      by_cases hid : id = s.donation_counter + 1
      · subst hid
        simp only [mapInsert_same, Option.getD_some, List.mem_append,
          List.mem_singleton]
        exact iff_of_true (Or.inr trivial) ⟨_, rfl, rfl⟩
      · simp only [mapInsert_same, Option.getD_some, List.mem_append,
          List.mem_singleton, hid, or_false, mapInsert_of_ne _ _ _ _ hid]
        exact hR _ id
    · rw [mapInsert_of_ne _ _ _ _ hx]
      by_cases hid : id = s.donation_counter + 1
      · subst hid
        simp only [mapInsert_same, Option.some.injEq]
        constructor
        · intro hmem
          exact absurd hmem (hfreshR x)
        · rintro ⟨r, hr, hto⟩
          subst hr
          exact absurd hto.symm hx
      · rw [mapInsert_of_ne _ _ _ _ hid]
        exact hR x id
  · intro x id
    show id ∈ (mapInsert s.donations_by_donor f
        (((s.donations_by_donor f).getD []) ++ [s.donation_counter + 1]) x).getD []
      ↔ ∃ r, mapInsert s.donations (s.donation_counter + 1)
          ⟨s.donation_counter + 1, ts, f, t, amount, message, src, dst⟩ id = some r ∧
        r.from_ = x
    by_cases hx : x = f
    · subst hx
      by_cases hid : id = s.donation_counter + 1
      · subst hid
        simp only [mapInsert_same, Option.getD_some, List.mem_append,
          List.mem_singleton]
        exact iff_of_true (Or.inr trivial) ⟨_, rfl, rfl⟩
      · simp only [mapInsert_same, Option.getD_some, List.mem_append,
          List.mem_singleton, hid, or_false, mapInsert_of_ne _ _ _ _ hid]
        exact hD _ id
    · rw [mapInsert_of_ne _ _ _ _ hx]
      by_cases hid : id = s.donation_counter + 1
      · subst hid
        simp only [mapInsert_same, Option.some.injEq]
        constructor
        · intro hmem
          exact absurd hmem (hfreshD x)
        · rintro ⟨r, hr, hfrom⟩
          subst hr
          exact absurd hfrom.symm hx
      · rw [mapInsert_of_ne _ _ _ _ hid]
        exact hD x id
  · intro x
    show ((mapInsert s.donations_by_recipient t
        (((s.donations_by_recipient t).getD []) ++ [s.donation_counter + 1])
        x).getD []).Nodup
    by_cases hx : x = t
    · subst hx
      simp only [mapInsert_same, Option.getD_some]
      rw [List.nodup_append]
      refine ⟨hRnd _, List.nodup_singleton _, ?_⟩
      intro a ha hb
      rw [List.mem_singleton] at hb
      subst hb
      exact hfreshR _ ha
    · rw [mapInsert_of_ne _ _ _ _ hx]
      exact hRnd x
  · intro x
    show ((mapInsert s.donations_by_donor f
        (((s.donations_by_donor f).getD []) ++ [s.donation_counter + 1])
        x).getD []).Nodup
    by_cases hx : x = f
    · subst hx
      simp only [mapInsert_same, Option.getD_some]
      rw [List.nodup_append]
      refine ⟨hDnd _, List.nodup_singleton _, ?_⟩
      intro a ha hb
      rw [List.mem_singleton] at hb
      subst hb
      exact hfreshD _ ha
    · rw [mapInsert_of_ne _ _ _ _ hx]
      exact hDnd x
  · intro id r
    show mapInsert s.donations (s.donation_counter + 1)
        ⟨s.donation_counter + 1, ts, f, t, amount, message, src, dst⟩ id = some r →
      r.id = id ∧ id ≤ s.donation_counter + 1
    by_cases hid : id = s.donation_counter + 1
    · subst hid
      rw [mapInsert_same]
      intro hr
      cases hr
      exact ⟨rfl, le_refl _⟩
    · rw [mapInsert_of_ne _ _ _ _ hid]
      intro hr
      obtain ⟨h1, h2⟩ := hBound id r hr
      exact ⟨h1, by omega⟩

theorem donationInv_applyDonations (calls : List DonationCall) :
    ∀ s, donationInv s → donationInv (applyDonations s calls) := by
  induction calls with
  | nil => intro s h; exact h
  | cons c rest ih =>
    intro s h
    exact ih _ (donationInv_step s c.from_ c.to_ c.amount c.message c.source_chain_id
      c.to_chain_id c.timestamp h)

/-- C8: after any sequence of `record_donation` calls from a fresh chain,
the recipient index of every owner holds exactly the ids of the stored
records with that recipient (duplicate-free, so amounts sum identically),
symmetrically for the donor index; and each call assigns the id
`previous counter + 1` and bumps the counter to it, so donation ids are
strictly increasing and unique per chain. -/
theorem donation_bookkeeping (calls : List DonationCall) :
    donationInv (applyDonations emptyState calls) ∧
    ∀ (s : DonationsState) (f t : AccountOwner) (amount : Amount)
      (message : Option String) (src dst : Option String) (ts : Nat),
      (record_donation s f t amount message src dst ts).2 = s.donation_counter + 1 ∧
      (record_donation s f t amount message src dst ts).1.donation_counter =
        s.donation_counter + 1 := by
  constructor
  · exact donationInv_applyDonations calls emptyState donationInv_empty
  · intro s f t amount message src dst ts
    exact ⟨rfl, rfl⟩

theorem donation_bookkeeping_witness :
    1 ∈ ((applyDonations emptyState [⟨1, 2, 5, none, none, none, 9⟩]).donations_by_recipient
        2).getD [] := by
  have h := (donation_bookkeeping [⟨1, 2, 5, none, none, none, 9⟩]).1
  exact (h.1 2 1).mpr ⟨⟨1, 9, 1, 2, 5, none, none, none⟩, by rfl, rfl⟩

def prodC1w : Product := ⟨"pw", 4, "9", [], 30, [], none, [], 5⟩

def stC1w : DonationsState :=
  { stC1 with products := mapInsert stC1.products "pw" prodC1w }

theorem delete_roundtrip_amended_witness :
    (∃ s2, delete_product stC1w "pw" 4 = Except.ok s2 ∧
      s2.products "pw" = none ∧
      "pw" ∉ (s2.products_by_author 4).getD [] ∧
      "pw" ∉ (s2.products_by_chain "9").getD []) ∧
    (∃ s3, delete_post stC1w "aabb" 3 = Except.ok s3 ∧
      s3.posts "aabb" = none ∧
      "aabb" ∉ (s3.posts_by_author 3).getD [] ∧
      s3.posts_by_chain = stC1w.posts_by_chain) :=
  ⟨(delete_roundtrip_amended stC1w prodC1w postC1).1 (by rfl),
   (delete_roundtrip_amended stC1w prodC1w postC1).2 (by rfl)⟩
